import Mathlib

/-!
Verification development for the audio_pro repository: a shallow embedding of
the job lifecycle (worker `processAudioJob` and the Bull queue retry loop from
`addAudioJob`), the upload controller (`uploadAudio`), the cleanup sweep
(`CleanupService.cleanupOldJobs`), the job delete endpoint
(`router.delete('/job/:jobId')`) and `convertAudio`, together with theorems
about the claims C1..C10.
-/

namespace AudioPro

/-- Job status enum: the `status` column of the `jobs` table
(prisma migration `20251116134945_init`). -/
inductive JobStatus where
  | PENDING
  | PROCESSING
  | COMPLETED
  | FAILED
deriving DecidableEq

/-- The payload the worker stores in a Job's `result` column.  In the code it
is a JSON string; it is modelled structurally, keeping the `outputPath` field
that the delete endpoint and the cleanup sweep parse back out, and an opaque
`info` string for the rest of the marshalled data. -/
structure ResPayload where
  outputPath : Option String
  info : String
deriving DecidableEq

/-- A row of the `jobs` table. -/
structure JobRow where
  id : Nat
  audioFileId : Nat
  type : String
  status : JobStatus
  progress : Nat
  result : Option ResPayload
  error : Option String
  completedAt : Option Int
deriving DecidableEq

/-- A row of the `audio_files` table. -/
structure AudioFileRow where
  id : Nat
  filename : String
  originalName : String
  path : String
  mimeType : String
  size : Nat
deriving DecidableEq

/-- The task payload `addAudioJob` enqueues:
`{ jobId, audioFileId, jobType, ...jobParams }` (queue.js lines 19-33). -/
structure JobData where
  jobId : Nat
  audioFileId : Nat
  jobType : String
  outputFormat : Option String
  startTime : Option Int
  endTime : Option Int
deriving DecidableEq

/-- The external world one worker attempt sees: the `prisma.audioFile.findUnique`
result, the `fs.existsSync` check on its path, FFmpeg availability, the
outcomes of the external audio-library calls, and the wall clock used for
`new Date()` in the COMPLETED update. -/
structure Env where
  audioFileRow : Option AudioFileRow
  fileOnDisk : Bool
  ffmpegAvailable : Bool
  metadataOutcome : Except String String
  audioInfoOutcome : Except String String
  convertOutcome : Except String ResPayload
  sliceOutcome : Except String ResPayload
  waveformOutcome : Except String ResPayload
  now : Int

/-- JS truthiness of an optional number: `undefined` and `0` are falsy
(the worker's `if (!startTime || !endTime)` guard). -/
def truthyNum : Option Int → Bool
  | none => false
  | some n => !(n == 0)

/-- JS truthiness of an optional string: `undefined` and `""` are falsy. -/
def truthyStr : Option String → Bool
  | none => false
  | some s => !(s == "")

/-- Discrimination of the worker's `switch (jobType)` (part_004 line 287). -/
inductive JKind where
  | metadata
  | analyze
  | convert
  | slice
  | waveform
  | other
deriving DecidableEq

/-- Which `switch (jobType)` branch a job-type string selects. -/
def jKind : String → JKind
  | "metadata" => .metadata
  | "analyze" => .analyze
  | "convert" => .convert
  | "slice" => .slice
  | "waveform" => .waveform
  | _ => .other

/-- The body of the worker's `switch (jobType)` (part_004 lines 287-393): the
computed result, or the thrown error message, paired with whether `sliceAudio`
was invoked (it is invoked exactly when the `slice` guard passes). -/
def dispatchJob (env : Env) (d : JobData) : Except String ResPayload × Bool :=
  match jKind d.jobType with
  | .metadata =>
    (match env.metadataOutcome with
     | .error e => .error e
     | .ok m =>
       if env.ffmpegAvailable then
         match env.audioInfoOutcome with
         | .ok i => .ok { outputPath := none, info := m ++ ";ffmpeg=" ++ i }
         | .error _ => .ok { outputPath := none, info := m ++ ";note=FFmpeg info unavailable" }
       else .ok { outputPath := none, info := m ++ ";note=FFmpeg not installed - basic metadata only" },
     false)
  | .analyze =>
    (match env.metadataOutcome with
     | .error e => .error e
     | .ok m =>
       if env.ffmpegAvailable then
         match env.audioInfoOutcome with
         | .ok i => .ok { outputPath := none, info := "metadata=" ++ m ++ ";technical=" ++ i }
         | .error e2 =>
             .ok { outputPath := none,
                   info := "metadata=" ++ m ++ ";technical=null;error=FFmpeg analysis failed: " ++ e2 }
       else
         .ok { outputPath := none,
               info := "metadata=" ++ m ++ ";technical=null;note=FFmpeg not installed - metadata only analysis" },
     false)
  | .convert =>
    (if !(truthyStr d.outputFormat) then .error "Output format is required for conversion"
     else if !env.ffmpegAvailable then .error "FFmpeg is not available. Please ensure FFmpeg is initialized."
     else env.convertOutcome,
     false)
  | .slice =>
    if !(truthyNum d.startTime) || !(truthyNum d.endTime) then
      (.error "Start and end times are required for slicing", false)
    else if !env.ffmpegAvailable then
      (.error "FFmpeg is not available. Please ensure FFmpeg is initialized.", true)
    else (env.sliceOutcome, true)
  | .waveform =>
    (if !env.ffmpegAvailable then .error "FFmpeg is not available. Please ensure FFmpeg is initialized."
     else env.waveformOutcome,
     false)
  | .other =>
    (match env.metadataOutcome with
     | .ok m => .ok { outputPath := none, info := m }
     | .error e => .error e,
     false)

/-- Outcome of one `processAudioJob` attempt after its PROCESSING update: first
the `audioFile` lookup (`throw 'Audio file not found'`), then the
`fs.existsSync` check (`throw 'Audio file does not exist'`), then the dispatch
(part_004 lines 270-393). -/
def processOutcome (env : Env) (d : JobData) : Except String ResPayload :=
  match env.audioFileRow with
  | none => .error "Audio file not found"
  | some _ =>
    if !env.fileOnDisk then .error "Audio file does not exist"
    else (dispatchJob env d).1

/-- A `prisma.job.update` write performed by `processAudioJob`. -/
inductive JobWrite where
  | processing
  | completed (r : ResPayload) (t : Int)
  | failed (msg : String)
deriving DecidableEq

/-- Effect of one `prisma.job.update` on the row: only the named columns change
(part_004 lines 260-267, 395-404, 411-418). -/
def applyWrite (row : JobRow) : JobWrite → JobRow
  | .processing => { row with status := .PROCESSING, progress := 10 }
  | .completed r t =>
      { row with status := .COMPLETED, progress := 100, result := some r, completedAt := some t }
  | .failed m => { row with status := .FAILED, error := some m }

/-- The terminal write of one attempt: COMPLETED with the serialized result and
`new Date()`, or FAILED with the thrown error's message. -/
def finishWrite (env : Env) (d : JobData) : JobWrite :=
  match processOutcome env d with
  | .ok r => .completed r env.now
  | .error m => .failed m

/-- The job-row writes of one delivery of the task to `processAudioJob`: the
unconditional PROCESSING update first, then the terminal update. -/
def processWrites (env : Env) (d : JobData) : List JobWrite :=
  [.processing, finishWrite env d]

/-- Whether the attempt returned normally (a throw makes Bull count the attempt
as failed and retry). -/
def processSucceeds (env : Env) (d : JobData) : Bool :=
  match processOutcome env d with
  | .ok _ => true
  | .error _ => false

/-- The queue-level retry loop (`attempts: 3` in `addAudioJob`): attempts run
until one succeeds or the attempt budget `envs.length` is exhausted; each
element of `envs` is the external world one attempt sees. -/
def queueRun (d : JobData) : List Env → List JobWrite
  | [] => []
  | env :: rest =>
      processWrites env d ++ (cond (processSucceeds env d) [] (queueRun d rest))

/-- The row `addAudioJob` creates: `status: 'PENDING'` and the schema defaults
`progress 0`, `result`/`error`/`completedAt` NULL (queue.js lines 10-16). -/
def createdJobRow (jobId afId : Nat) (jt : String) : JobRow :=
  { id := jobId, audioFileId := afId, type := jt, status := .PENDING, progress := 0,
    result := none, error := none, completedAt := none }

/-- The created row for a given enqueued task. -/
def jobDataRow (d : JobData) : JobRow := createdJobRow d.jobId d.audioFileId d.jobType

/-- All states of a row along a write list, the starting row included. -/
def traceFrom (row : JobRow) : List JobWrite → List JobRow
  | [] => [row]
  | w :: ws => row :: traceFrom (applyWrite row w) ws

/-- All states the Job row passes through along a full queue run, starting
from the freshly created PENDING row. -/
def jobTrace (envs : List Env) (d : JobData) : List JobRow :=
  traceFrom (jobDataRow d) (queueRun d envs)

/-- The row after a write list. -/
def runRow (row : JobRow) : List JobWrite → JobRow
  | [] => row
  | w :: ws => runRow (applyWrite row w) ws

/-- The Job row after a full queue run. -/
def finalRow (envs : List Env) (d : JobData) : JobRow :=
  runRow (jobDataRow d) (queueRun d envs)

/-- The status transitions the spec allows (claim C1): PENDING → PROCESSING and
PROCESSING → COMPLETED/FAILED, terminal states never left. -/
def specStepB : JobStatus → JobStatus → Bool
  | .PENDING, .PROCESSING => true
  | .PROCESSING, .COMPLETED => true
  | .PROCESSING, .FAILED => true
  | _, _ => false

/-- The status transitions the code actually performs: the spec's, plus the
re-entry FAILED → PROCESSING done by the unconditional PROCESSING update of a
queue-level retry. -/
def retryStepB : JobStatus → JobStatus → Bool
  | .PENDING, .PROCESSING => true
  | .PROCESSING, .COMPLETED => true
  | .PROCESSING, .FAILED => true
  | .FAILED, .PROCESSING => true
  | _, _ => false

/-- Every consecutive pair of the list satisfies the step relation. -/
def chainB (step : JobStatus → JobStatus → Bool) : List JobStatus → Bool
  | [] => true
  | [_] => true
  | a :: b :: rest => step a b && chainB step (b :: rest)

/-! Upload controller (`uploadController.js`, `uploadAudio`). -/

/-- An upload request as `uploadAudio` sees it: the multer file (absent when no
file was uploaded) and the body fields `jobType`, `outputFormat`, `startTime`,
`endTime` (absent fields are `none`). -/
structure UploadReq where
  hasFile : Bool
  fileFilename : String
  fileOriginalName : String
  filePath : String
  fileMimeType : String
  fileSize : Nat
  jobType : Option String
  outputFormat : Option String
  startTime : Option String
  endTime : Option String

/-- `const { jobType = 'metadata', ... } = req.body`. -/
def effectiveJobType (req : UploadReq) : String := req.jobType.getD "metadata"

/-- JS `parseFloat` restricted to the integral numerals this development uses. -/
def parseFloatJS (s : String) : Int := s.toInt?.getD 0

/-- The `jobParams` object `uploadAudio` builds (uploadController.js lines 90-97). -/
structure JobParams where
  outputFormat : Option String
  startTime : Option Int
  endTime : Option Int

/-- `jobParams` construction: convert keeps `outputFormat` when truthy; slice
keeps `parseFloat(startTime)`/`parseFloat(endTime)` when both body strings are
truthy; otherwise the params object stays empty. -/
def uploadJobParams (req : UploadReq) : JobParams :=
  let jt := effectiveJobType req
  if (jt == "convert") && truthyStr req.outputFormat then
    { outputFormat := req.outputFormat, startTime := none, endTime := none }
  else if (jt == "slice") && truthyStr req.startTime && truthyStr req.endTime then
    { outputFormat := none,
      startTime := some (parseFloatJS (req.startTime.getD "")),
      endTime := some (parseFloatJS (req.endTime.getD "")) }
  else { outputFormat := none, startTime := none, endTime := none }

/-- The task `addAudioJob` enqueues for this request. -/
def enqueuedJobData (req : UploadReq) (afId jobId : Nat) : JobData :=
  let ps := uploadJobParams req
  { jobId := jobId, audioFileId := afId, jobType := effectiveJobType req,
    outputFormat := ps.outputFormat, startTime := ps.startTime, endTime := ps.endTime }

/-- The `audio_files` row `uploadAudio` creates from the multer file. -/
def uploadedAudioFileRow (req : UploadReq) (afId : Nat) : AudioFileRow :=
  { id := afId, filename := req.fileFilename, originalName := req.fileOriginalName,
    path := req.filePath, mimeType := req.fileMimeType, size := req.fileSize }

/-- One observable effect of `uploadAudio`, in program order. -/
inductive UpEffect where
  | createAudioFile (row : AudioFileRow)
  | createJob (row : JobRow)
  | enqueue (d : JobData)
  | respond (code : Nat)
deriving DecidableEq

/-- What `uploadAudio` returns to the client: the HTTP status and the `job`
object of the 201 body (`{ id, type, status }`). -/
structure UploadOutcome where
  effects : List UpEffect
  status : Nat
  jobInBody : Option (Nat × String × JobStatus)

/-- `uploadAudio` (uploadController.js lines 67-120): 400 when no file was
uploaded; otherwise create the AudioFile row, create the PENDING Job row and
enqueue the task (`addAudioJob`), then answer 201 with the job's id, type and
status.  `afId` and `jobId` stand for the ids the database generates. -/
def uploadAudio (req : UploadReq) (afId jobId : Nat) : UploadOutcome :=
  if !req.hasFile then
    { effects := [.respond 400], status := 400, jobInBody := none }
  else
    let af := uploadedAudioFileRow req afId
    let jrow := createdJobRow jobId afId (effectiveJobType req)
    { effects := [.createAudioFile af, .createJob jrow,
                  .enqueue (enqueuedJobData req afId jobId), .respond 201],
      status := 201,
      jobInBody := some (jrow.id, jrow.type, jrow.status) }

/-- The Job-creation effect happens strictly before the 201 response effect. -/
def jobCreatedBefore201 (out : UploadOutcome) (jrow : JobRow) : Prop :=
  ∃ pre post, out.effects = pre ++ UpEffect.createJob jrow :: post ∧
    UpEffect.respond 201 ∈ post

/-! Cleanup sweep (part_002, `CleanupService.cleanupOldJobs`). -/

/-- `cutoffDate = new Date(Date.now() - jobAgeHours * 60 * 60 * 1000)`;
timestamps are milliseconds. -/
def cleanupCutoff (now jobAgeHours : Int) : Int := now - jobAgeHours * 60 * 60 * 1000

/-- The `findMany` filter of the sweep: `status: 'COMPLETED'` and
`completedAt: { lt: cutoffDate }` (a NULL `completedAt` never satisfies `lt`). -/
def oldJobPred (cutoff : Int) (j : JobRow) : Bool :=
  (match j.status with | .COMPLETED => true | _ => false) &&
    (match j.completedAt with | some t => decide (t < cutoff) | none => false)

/-- One run of `cleanupOldJobs`: the deleted jobs (those the filter selects)
and the jobs that remain. -/
def cleanupOldJobs (jobs : List JobRow) (now jobAgeHours : Int) : List JobRow × List JobRow :=
  let cutoff := cleanupCutoff now jobAgeHours
  (jobs.filter (oldJobPred cutoff), jobs.filter (fun j => !(oldJobPred cutoff j)))

/-! Delete endpoint (part_003, `router.delete('/job/:jobId')`). -/

/-- The basename extraction both the delete endpoint and the cleanup sweep
apply to `result.outputPath`: the part after the last path separator, or the
whole string when it holds none. -/
def fileNameOf (p : String) : String := (p.splitOn "/").getLastD p

/-- Server-side state the delete endpoint touches: the two tables and the
upload directory (a list of the filenames present on disk). -/
structure ServerState where
  jobs : List JobRow
  audioFiles : List AudioFileRow
  disk : List String

/-- `prisma.job.findUnique({ where: { id } })`. -/
def findJob (jobs : List JobRow) (jobId : Nat) : Option JobRow :=
  jobs.find? (fun j => j.id == jobId)

/-- `prisma.audioFile.findUnique` by id (the `include: { audioFile: true }` join). -/
def findAudioFile (afs : List AudioFileRow) (afId : Nat) : Option AudioFileRow :=
  afs.find? (fun a => a.id == afId)

/-- The `otherJobs` query: jobs referencing the same AudioFile other than the
one being deleted (part_003 lines 361-366). -/
def siblingJobs (jobs : List JobRow) (jobId afId : Nat) : List JobRow :=
  jobs.filter (fun j => (j.audioFileId == afId) && (j.id != jobId))

/-- Output-file deletion of the delete endpoint (part_003 lines 321-340):
remove the basename of the parsed result's `outputPath` from the upload
directory when present; returns the new disk and the `filesDeleted` so far. -/
def deleteOutputDisk (job : JobRow) (disk : List String) : List String × List String :=
  match job.result.bind ResPayload.outputPath with
  | some p =>
    let fn := fileNameOf p
    if disk.contains fn then (disk.erase fn, [fn]) else (disk, [])
  | none => (disk, [])

/-- Original-file deletion of the delete endpoint (part_003 lines 342-354):
unconditionally remove `audioFile.filename` from the upload directory when
present. -/
def deleteOriginalDisk (a : AudioFileRow) (dk : List String × List String) :
    List String × List String :=
  if dk.1.contains a.filename then (dk.1.erase a.filename, dk.2 ++ [a.filename]) else dk

/-- `DELETE /api/upload/job/:jobId` (part_003 lines 301-394): 404 when the job
does not exist; otherwise delete the output file named in the parsed result's
`outputPath` (when present on disk), unconditionally delete the original
uploaded file (when present on disk), delete the Job row, and delete the
AudioFile row only when no sibling Job references it.  Returns the new state,
the HTTP status, and the `filesDeleted` list of the response body. -/
def deleteJobEndpoint (s : ServerState) (jobId : Nat) : ServerState × Nat × List String :=
  match findJob s.jobs jobId with
  | none => (s, 404, [])
  | some job =>
    let jobs' := s.jobs.filter (fun j => j.id != jobId)
    match findAudioFile s.audioFiles job.audioFileId with
    | some a =>
      let dk := deleteOriginalDisk a (deleteOutputDisk job s.disk)
      let audioFiles' :=
        if (siblingJobs s.jobs jobId a.id).isEmpty then
          s.audioFiles.filter (fun x => x.id != a.id)
        else s.audioFiles
      ({ jobs := jobs', audioFiles := audioFiles', disk := dk.1 }, 200, dk.2)
    | none =>
      let dk := deleteOutputDisk job s.disk
      ({ jobs := jobs', audioFiles := s.audioFiles, disk := dk.1 }, 200, dk.2)

/-! `convertAudio` (part_004 lines 93-141). -/

/-- JS `path.extname`: the extension of the basename, empty for names with no
dot or only a leading dot. -/
def extnameJS (p : String) : String :=
  match (fileNameOf p).splitOn "." with
  | [] => ""
  | [_] => ""
  | ["", _] => ""
  | parts => "." ++ parts.getLastD ""

/-- JS `path.basename(p, ext)`: the basename with a trailing `ext` stripped. -/
def basenameNoExt (p : String) : String :=
  let b := fileNameOf p
  let e := extnameJS p
  if (!(e == "")) && b.endsWith e then b.dropRight e.length else b

/-- JS `path.dirname`. -/
def dirnameJS (p : String) : String :=
  match (p.splitOn "/").dropLast with
  | [] => "."
  | parts => String.intercalate "/" parts

/-- What one `convertAudio` call does: the argument list handed to
`ffmpeg.run`, the output file name, and the returned result object.
`outputSize` stands for the `fs.statSync(outputPath).size` of the written
file. -/
structure ConvertCall where
  args : List String
  outputFileName : String
  resultOutputPath : String
  resultOutputFormat : String
  resultSize : Nat
  resultMessage : String
deriving DecidableEq

/-- `convertAudio(inputPath, outputFormat, jobId)`: the output name is
`` `${inputName}_converted.${outputFormat}` `` while the FFmpeg arguments force
`-codec:a libmp3lame -b:a 192k` whatever the requested format. -/
def convertAudio (inputPath outputFormat : String) (outputSize : Nat) : ConvertCall :=
  let outputDir := dirnameJS inputPath
  let inputName := basenameNoExt inputPath
  let outputFileName := inputName ++ "_converted." ++ outputFormat
  let outputPath := outputDir ++ "/" ++ outputFileName
  let inputFileName := fileNameOf inputPath
  { args := ["-i", inputFileName, "-codec:a", "libmp3lame", "-b:a", "192k", "-y", outputFileName],
    outputFileName := outputFileName,
    resultOutputPath := outputPath,
    resultOutputFormat := outputFormat,
    resultSize := outputSize,
    resultMessage := "Audio converted to " ++ outputFormat.toUpper }

/-! Concrete sample values used by counterexamples and witnesses. -/

/-- A sample `audio_files` row. -/
def afSample : AudioFileRow :=
  { id := 1, filename := "song.wav", originalName := "song.wav",
    path := "./uploads/song.wav", mimeType := "audio/wav", size := 64 }

/-- An attempt environment in which the worker succeeds. -/
def envOk : Env :=
  { audioFileRow := some afSample, fileOnDisk := true, ffmpegAvailable := true,
    metadataOutcome := .ok "duration=3", audioInfoOutcome := .ok "codec=pcm",
    convertOutcome := .ok { outputPath := some "./uploads/song_converted.mp3", info := "converted" },
    sliceOutcome := .ok { outputPath := some "./uploads/song_clip_0-1.wav", info := "sliced" },
    waveformOutcome := .ok { outputPath := some "./uploads/song_waveform.png", info := "waveform" },
    now := 2000 }

/-- An attempt environment with a transient failure: the uploaded file is not
visible on disk yet, so the attempt throws `'Audio file does not exist'`. -/
def envTransient : Env := { envOk with fileOnDisk := false, now := 1000 }

/-- A sample metadata task. -/
def dMeta : JobData :=
  { jobId := 7, audioFileId := 1, jobType := "metadata",
    outputFormat := none, startTime := none, endTime := none }

/-! Reachability invariants of the job-row trace. -/

/-- Row-level facts of reachable job rows: `result` and `completedAt` are only
populated in the COMPLETED state, the PROCESSING update set progress 10, the
COMPLETED update set progress 100 with a result and a completion time, and a
FAILED row carries an error message. -/
def StateInv (row : JobRow) : Prop :=
  (row.status ≠ .COMPLETED → row.result = none ∧ row.completedAt = none) ∧
  (row.status = .PROCESSING → row.progress = 10) ∧
  (row.status = .COMPLETED →
     row.progress = 100 ∧ row.result.isSome = true ∧ row.completedAt.isSome = true) ∧
  (row.status = .FAILED → row.error.isSome = true)

/-- Shape of a row at which the queue (re)delivers the task: the freshly
created PENDING row, or the FAILED row a previous attempt left behind. -/
def ReEntry (row : JobRow) : Prop :=
  row.result = none ∧ row.completedAt = none ∧
    (row.status = .PENDING ∨ (row.status = .FAILED ∧ row.error.isSome = true))

theorem reEntry_stateInv {row : JobRow} (h : ReEntry row) : StateInv row := by
  obtain ⟨h1, h2, h3⟩ := h
  refine ⟨fun _ => ⟨h1, h2⟩, ?_, ?_, ?_⟩
  · intro hp
    rcases h3 with h3 | ⟨h3, _⟩ <;> simp [h3] at hp
  · intro hc
    rcases h3 with h3 | ⟨h3, _⟩ <;> simp [h3] at hc
  · intro hf
    rcases h3 with h3 | ⟨_, h4⟩
    · simp [h3] at hf
    · exact h4

theorem traceFrom_cons (row : JobRow) (ws : List JobWrite) :
    ∃ tl, traceFrom row ws = row :: tl := by
  cases ws with
  | nil => exact ⟨[], rfl⟩
  | cons w ws => exact ⟨traceFrom (applyWrite row w) ws, rfl⟩

theorem queueRun_cons (d : JobData) (env : Env) (rest : List Env) :
    queueRun d (env :: rest)
      = JobWrite.processing :: finishWrite env d ::
          (cond (processSucceeds env d) [] (queueRun d rest)) := by
  simp [queueRun, processWrites]

/-- Every row reachable along a queue run from a re-entry row satisfies the
state invariant. -/
theorem traceFrom_inv (d : JobData) :
    ∀ (envs : List Env) (row : JobRow), ReEntry row →
      ∀ r ∈ traceFrom row (queueRun d envs), StateInv r := by
  intro envs
  induction envs with
  | nil =>
    intro row h r hr
    simp [queueRun, traceFrom] at hr
    subst hr
    exact reEntry_stateInv h
  | cons env rest ih =>
    intro row h r hr
    obtain ⟨hres, hcomp, hstat⟩ := h
    rw [queueRun_cons] at hr
    have hexp : traceFrom row (JobWrite.processing :: finishWrite env d ::
        (cond (processSucceeds env d) [] (queueRun d rest)))
        = row :: applyWrite row .processing ::
            traceFrom (applyWrite (applyWrite row .processing) (finishWrite env d))
              (cond (processSucceeds env d) [] (queueRun d rest)) := rfl
    rw [hexp] at hr
    rcases List.mem_cons.mp hr with hr1 | hr'
    · subst hr1
      exact reEntry_stateInv ⟨hres, hcomp, hstat⟩
    rcases List.mem_cons.mp hr' with hr1 | hmem
    · subst hr1
      exact ⟨fun _ => ⟨hres, hcomp⟩, fun _ => rfl,
        fun hc => by simp [applyWrite] at hc, fun hf => by simp [applyWrite] at hf⟩
    cases hcore : processOutcome env d with
    | ok val =>
      have hfin : finishWrite env d = .completed val env.now := by
        simp [finishWrite, hcore]
      have hsucc : processSucceeds env d = true := by
        simp [processSucceeds, hcore]
      rw [hfin, hsucc] at hmem
      have hr2 : r = applyWrite (applyWrite row .processing) (.completed val env.now) := by
        simpa [traceFrom] using hmem
      subst hr2
      exact ⟨fun hne => absurd rfl hne, fun hp => by simp [applyWrite] at hp,
        fun _ => ⟨rfl, rfl, rfl⟩, fun hf => by simp [applyWrite] at hf⟩
    | error m =>
      have hfin : finishWrite env d = .failed m := by
        simp [finishWrite, hcore]
      have hsucc : processSucceeds env d = false := by
        simp [processSucceeds, hcore]
      rw [hfin, hsucc] at hmem
      exact ih (applyWrite (applyWrite row .processing) (.failed m))
        ⟨hres, hcomp, Or.inr ⟨rfl, rfl⟩⟩ r (by simpa using hmem)

/-- Every status transition along a queue run is one of the code's transitions:
the spec's arrows plus the retry re-entry FAILED → PROCESSING. -/
theorem traceFrom_chain (d : JobData) :
    ∀ (envs : List Env) (row : JobRow),
      row.status = .PENDING ∨ row.status = .FAILED →
      chainB retryStepB ((traceFrom row (queueRun d envs)).map JobRow.status) = true := by
  intro envs
  induction envs with
  | nil =>
    intro row _
    simp [queueRun, traceFrom, chainB]
  | cons env rest ih =>
    intro row hst
    have h1 : retryStepB row.status .PROCESSING = true := by
      rcases hst with h | h <;> rw [h] <;> rfl
    rw [queueRun_cons]
    cases hcore : processOutcome env d with
    | ok val =>
      have hfin : finishWrite env d = .completed val env.now := by
        simp [finishWrite, hcore]
      have hsucc : processSucceeds env d = true := by
        simp [processSucceeds, hcore]
      rw [hfin, hsucc]
      show chainB retryStepB [row.status, .PROCESSING, .COMPLETED] = true
      rw [show chainB retryStepB [row.status, .PROCESSING, .COMPLETED]
            = (retryStepB row.status .PROCESSING &&
                (retryStepB .PROCESSING .COMPLETED && true)) from rfl, h1]
      rfl
    | error m =>
      have hfin : finishWrite env d = .failed m := by
        simp [finishWrite, hcore]
      have hsucc : processSucceeds env d = false := by
        simp [processSucceeds, hcore]
      rw [hfin, hsucc]
      obtain ⟨tl, htl⟩ :=
        traceFrom_cons (applyWrite (applyWrite row .processing) (.failed m)) (queueRun d rest)
      have hchain : chainB retryStepB
          ((traceFrom (applyWrite (applyWrite row .processing) (.failed m))
            (queueRun d rest)).map JobRow.status) = true :=
        ih (applyWrite (applyWrite row .processing) (.failed m)) (Or.inr rfl)
      rw [htl] at hchain
      have hchain2 : chainB retryStepB (JobStatus.FAILED :: tl.map JobRow.status) = true := by
        simpa [applyWrite] using hchain
      show chainB retryStepB (row.status :: JobStatus.PROCESSING ::
        ((traceFrom (applyWrite (applyWrite row .processing) (.failed m))
          (queueRun d rest)).map JobRow.status)) = true
      rw [htl]
      show (retryStepB row.status .PROCESSING &&
          (retryStepB .PROCESSING .FAILED &&
            chainB retryStepB (JobStatus.FAILED :: tl.map JobRow.status))) = true
      rw [h1, hchain2]
      rfl

/-- When every attempt of a nonempty run throws, the final row is FAILED with
an error message recorded. -/
theorem runRow_queueRun_fail (d : JobData) :
    ∀ (envs : List Env) (row : JobRow), envs ≠ [] →
      (∀ e ∈ envs, processSucceeds e d = false) →
      (runRow row (queueRun d envs)).status = .FAILED ∧
        (runRow row (queueRun d envs)).error.isSome = true := by
  intro envs
  induction envs with
  | nil => intro row h _; exact absurd rfl h
  | cons env rest ih =>
    intro row _ hall
    have hfail : processSucceeds env d = false := hall env (List.mem_cons_self env rest)
    obtain ⟨m, hcore⟩ : ∃ m, processOutcome env d = .error m := by
      cases hc : processOutcome env d with
      | ok v => simp [processSucceeds, hc] at hfail
      | error m => exact ⟨m, rfl⟩
    have hfin : finishWrite env d = .failed m := by simp [finishWrite, hcore]
    rw [queueRun_cons, hfin, hfail]
    cases rest with
    | nil => exact ⟨rfl, rfl⟩
    | cons e2 r2 =>
      exact ih (applyWrite (applyWrite row .processing) (.failed m)) (by simp)
        (fun e he => hall e (List.mem_cons_of_mem _ he))

/-- When every attempt of a nonempty run throws the same message, the final
row is FAILED with exactly that message. -/
theorem runRow_queueRun_constFail (d : JobData) (M : String) :
    ∀ (envs : List Env) (row : JobRow), envs ≠ [] →
      (∀ e ∈ envs, processOutcome e d = .error M) →
      (runRow row (queueRun d envs)).status = .FAILED ∧
        (runRow row (queueRun d envs)).error = some M := by
  intro envs
  induction envs with
  | nil => intro row h _; exact absurd rfl h
  | cons env rest ih =>
    intro row _ hall
    have hcore : processOutcome env d = .error M := hall env (List.mem_cons_self env rest)
    have hfail : processSucceeds env d = false := by simp [processSucceeds, hcore]
    have hfin : finishWrite env d = .failed M := by simp [finishWrite, hcore]
    rw [queueRun_cons, hfin, hfail]
    cases rest with
    | nil => exact ⟨rfl, rfl⟩
    | cons e2 r2 =>
      exact ih (applyWrite (applyWrite row .processing) (.failed M)) (by simp)
        (fun e he => hall e (List.mem_cons_of_mem _ he))

/-- The slice guard: when `startTime` or `endTime` is falsy, the dispatch
throws its message and `sliceAudio` is not invoked. -/
theorem slice_guard (env : Env) (d : JobData) (hjt : jKind d.jobType = .slice)
    (hguard : (!(truthyNum d.startTime) || !(truthyNum d.endTime)) = true) :
    dispatchJob env d = (.error "Start and end times are required for slicing", false) := by
  simp [dispatchJob, hjt, hguard]

/-- Under the failed slice guard the whole attempt throws; when the audio file
is found and on disk, the thrown message is the guard's. -/
theorem slice_attempt (env : Env) (d : JobData) (hjt : jKind d.jobType = .slice)
    (hguard : (!(truthyNum d.startTime) || !(truthyNum d.endTime)) = true) :
    processSucceeds env d = false ∧
    (env.audioFileRow.isSome = true → env.fileOnDisk = true →
      processOutcome env d = .error "Start and end times are required for slicing") := by
  have hd := slice_guard env d hjt hguard
  constructor
  · cases haf : env.audioFileRow with
    | none => simp [processSucceeds, processOutcome, haf]
    | some a =>
      cases hfd : env.fileOnDisk with
      | false => simp [processSucceeds, processOutcome, haf, hfd]
      | true => simp [processSucceeds, processOutcome, haf, hfd, hd]
  · intro h1 h2
    cases haf : env.audioFileRow with
    | none => simp [haf] at h1
    | some a => simp [processOutcome, haf, h2, hd]

/-- In a run without a queue retry (a single delivery), an error message on
the row is only ever present in the FAILED state. -/
theorem singleAttempt_error_only_failed (env : Env) (d : JobData) :
    ∀ row ∈ jobTrace [env] d, row.error.isSome = true → row.status = .FAILED := by
  intro row hrow herr
  rw [jobTrace, queueRun_cons] at hrow
  cases hcore : processOutcome env d with
  | ok v =>
    rw [show finishWrite env d = .completed v env.now from by simp [finishWrite, hcore],
        show processSucceeds env d = true from by simp [processSucceeds, hcore]] at hrow
    simp [traceFrom] at hrow
    rcases hrow with h | h | h <;> subst h <;>
      simp [jobDataRow, createdJobRow, applyWrite] at herr
  | error m =>
    rw [show finishWrite env d = .failed m from by simp [finishWrite, hcore],
        show processSucceeds env d = false from by simp [processSucceeds, hcore]] at hrow
    simp [traceFrom, queueRun] at hrow
    rcases hrow with h | h | h
    · subst h; simp [jobDataRow, createdJobRow] at herr
    · subst h; simp [jobDataRow, createdJobRow, applyWrite] at herr
    · subst h; rfl

/-- The freshly created row is a re-entry point. -/
theorem reEntry_created (d : JobData) : ReEntry (jobDataRow d) := ⟨rfl, rfl, Or.inl rfl⟩

/-- The cleanup filter selects exactly the COMPLETED jobs completed strictly
before the cutoff. -/
theorem oldJobPred_iff (cutoff : Int) (j : JobRow) :
    oldJobPred cutoff j = true ↔
      (j.status = .COMPLETED ∧ ∃ t, j.completedAt = some t ∧ t < cutoff) := by
  cases hs : j.status <;> cases hc : j.completedAt <;> simp [oldJobPred, hs, hc]

theorem contains_iff {l : List String} {x : String} : l.contains x = true ↔ x ∈ l := by
  simp [List.contains]

theorem deleteOutputDisk_mem {job : JobRow} {disk : List String} {x : String}
    (hx : x ∈ (deleteOutputDisk job disk).1) : x ∈ disk := by
  cases hp : job.result.bind ResPayload.outputPath with
  | none => simpa [deleteOutputDisk, hp] using hx
  | some p =>
    simp only [deleteOutputDisk, hp] at hx
    split at hx
    · exact List.mem_of_mem_erase hx
    · exact hx

theorem deleteOutputDisk_nodup {job : JobRow} {disk : List String} (h : disk.Nodup) :
    (deleteOutputDisk job disk).1.Nodup := by
  cases hp : job.result.bind ResPayload.outputPath with
  | none => simpa [deleteOutputDisk, hp] using h
  | some p =>
    simp only [deleteOutputDisk, hp]
    split
    · exact h.erase (fileNameOf p)
    · exact h

theorem deleteOutputDisk_not_mem {job : JobRow} {disk : List String} {p : String}
    (h : disk.Nodup) (hp : job.result.bind ResPayload.outputPath = some p) :
    fileNameOf p ∉ (deleteOutputDisk job disk).1 := by
  simp only [deleteOutputDisk, hp]
  split
  · intro hx
    exact ((List.Nodup.mem_erase_iff h).mp hx).1 rfl
  · rename_i hc
    intro hx
    exact hc (contains_iff.mpr hx)

theorem deleteOriginalDisk_mem {a : AudioFileRow} {dk : List String × List String} {x : String}
    (hx : x ∈ (deleteOriginalDisk a dk).1) : x ∈ dk.1 := by
  simp only [deleteOriginalDisk] at hx
  split at hx
  · exact List.mem_of_mem_erase hx
  · exact hx

theorem deleteOriginalDisk_not_mem_filename {a : AudioFileRow}
    {dk : List String × List String} (h : dk.1.Nodup) :
    a.filename ∉ (deleteOriginalDisk a dk).1 := by
  simp only [deleteOriginalDisk]
  split
  · intro hx
    exact ((List.Nodup.mem_erase_iff h).mp hx).1 rfl
  · rename_i hc
    intro hx
    exact hc (contains_iff.mpr hx)

theorem deleteOriginalDisk_reports {a : AudioFileRow} {dk : List String × List String}
    (hmem : a.filename ∈ dk.1) : a.filename ∈ (deleteOriginalDisk a dk).2 := by
  simp only [deleteOriginalDisk]
  rw [if_pos (contains_iff.mpr hmem)]
  simp

theorem deleteOutputDisk_removed_reported {job : JobRow} {disk : List String} {x : String}
    (hx : x ∈ disk) (hnot : x ∉ (deleteOutputDisk job disk).1) :
    x ∈ (deleteOutputDisk job disk).2 := by
  cases hp : job.result.bind ResPayload.outputPath with
  | none =>
    simp only [deleteOutputDisk, hp] at hnot
    exact absurd hx hnot
  | some p =>
    simp only [deleteOutputDisk, hp] at hnot ⊢
    by_cases hc : disk.contains (fileNameOf p) = true
    · rw [if_pos hc] at hnot ⊢
      by_cases hxy : x = fileNameOf p
      · simp [hxy]
      · exact absurd ((List.mem_erase_of_ne hxy).mpr hx) hnot
    · rw [if_neg hc] at hnot
      exact absurd hx hnot

theorem deleteOriginalDisk_keeps_reported {a : AudioFileRow} {dk : List String × List String}
    {x : String} (hx : x ∈ dk.2) : x ∈ (deleteOriginalDisk a dk).2 := by
  simp only [deleteOriginalDisk]
  split
  · simp [hx]
  · exact hx

/-! The claims. -/

/-- Claim C1, counterexample: `processAudioJob` updates the row to PROCESSING
unconditionally at the start of every delivery, and the queue retries a failed
attempt (`attempts: 3`), so after a first attempt that throws (here the upload
is not yet visible on disk) the row is FAILED and the retry's first write moves
it back to PROCESSING: the written status sequence is PENDING, PROCESSING,
FAILED, PROCESSING, COMPLETED, which leaves the terminal FAILED state. -/
theorem C1_counterexample :
    chainB specStepB ((jobTrace [envTransient, envOk] dMeta).map JobRow.status) = false := by
  decide

/-- Claim C1 as amended: every status write follows PENDING → PROCESSING →
{COMPLETED, FAILED} and no write skips PROCESSING, but across queue-level
retries the sequence is only monotonic up to the re-entry transition
FAILED → PROCESSING that a retry of a failed attempt performs; COMPLETED is
never left. -/
theorem C1_amended (envs : List Env) (d : JobData) :
    chainB retryStepB ((jobTrace envs d).map JobRow.status) = true :=
  traceFrom_chain d envs (jobDataRow d) (Or.inl rfl)

/-- Claim C2, counterexample: the PROCESSING update of a queue retry does not
clear `error`, so after a failed first attempt the second delivery yields a
reachable row whose `error` is non-null while its status is PROCESSING. -/
theorem C2_counterexample :
    ∃ row ∈ jobTrace [envTransient, envOk] dMeta,
      row.error.isSome = true ∧ row.status ≠ .FAILED := by
  decide

/-- Claim C2 as amended: on every run, `result` is non-null only when the
status is COMPLETED; `error` is non-null only when the status is FAILED on
runs without a queue retry — after a retry of a failed attempt the stale
`error` persists into the PROCESSING (and later COMPLETED) states, because
those updates do not clear it. -/
theorem C2_amended (envs : List Env) (env : Env) (d : JobData) :
    (∀ row ∈ jobTrace envs d, row.result.isSome = true → row.status = .COMPLETED) ∧
    (∀ row ∈ jobTrace [env] d, row.error.isSome = true → row.status = .FAILED) := by
  constructor
  · intro row hrow hres
    have hinv := traceFrom_inv d envs (jobDataRow d) (reEntry_created d) row hrow
    by_contra hne
    rw [(hinv.1 hne).1] at hres
    simp at hres
  · exact singleAttempt_error_only_failed env d

/-- Claim C3: along every run, a PROCESSING row has progress 10, a COMPLETED
row has progress 100 with a stored result and a non-null completedAt, and a
FAILED row records the thrown error's message while its completedAt stays
null; moreover one delivery writes exactly the PROCESSING update followed by
either the COMPLETED update carrying the result and the timestamp or the
FAILED update carrying the thrown message. -/
theorem C3_transition_fields (envs : List Env) (d : JobData) :
    (∀ row ∈ jobTrace envs d,
      (row.status = .PROCESSING → row.progress = 10) ∧
      (row.status = .COMPLETED →
        row.progress = 100 ∧ row.result.isSome = true ∧ row.completedAt.isSome = true) ∧
      (row.status = .FAILED → row.error.isSome = true ∧ row.completedAt = none)) ∧
    (∀ env : Env,
      (∀ r, processOutcome env d = .ok r →
        processWrites env d = [.processing, .completed r env.now]) ∧
      (∀ m, processOutcome env d = .error m →
        processWrites env d = [.processing, .failed m])) := by
  constructor
  · intro row hrow
    have hinv := traceFrom_inv d envs (jobDataRow d) (reEntry_created d) row hrow
    refine ⟨hinv.2.1, hinv.2.2.1, fun hf => ⟨hinv.2.2.2 hf, ?_⟩⟩
    exact (hinv.1 (by simp [hf])).2
  · intro env
    exact ⟨fun r hr => by simp [processWrites, finishWrite, hr],
           fun m hm => by simp [processWrites, finishWrite, hm]⟩

/-- Claim C4: a run of the cleanup sweep deletes exactly the jobs whose status
is COMPLETED and whose completedAt is strictly earlier than the configured
cutoff `now - jobAgeHours`; a younger COMPLETED job, and a PENDING, PROCESSING
or FAILED job of any age, is never deleted. -/
theorem C4_cleanup_only_old_completed (jobs : List JobRow) (now jobAgeHours : Int)
    (j : JobRow) :
    j ∈ (cleanupOldJobs jobs now jobAgeHours).1 ↔
      (j ∈ jobs ∧ j.status = .COMPLETED ∧
        ∃ t, j.completedAt = some t ∧ t < cleanupCutoff now jobAgeHours) := by
  simp [cleanupOldJobs, List.mem_filter, oldJobPred_iff]

/-- Claim C5: for an existing Job, the delete endpoint answers 200, removes
exactly that Job row, removes the output file named in the parsed result's
`outputPath` from the upload directory, and deletes the referenced AudioFile
row exactly when no other Job row references the same AudioFile at the time
of the check. -/
theorem C5_delete_endpoint (s : ServerState) (jobId : Nat) (job : JobRow) (a : AudioFileRow)
    (hfind : findJob s.jobs jobId = some job)
    (haf : findAudioFile s.audioFiles job.audioFileId = some a)
    (hnodup : s.disk.Nodup) :
    (deleteJobEndpoint s jobId).2.1 = 200 ∧
    (∀ j, j ∈ (deleteJobEndpoint s jobId).1.jobs ↔ (j ∈ s.jobs ∧ j.id ≠ jobId)) ∧
    (∀ p, job.result.bind ResPayload.outputPath = some p →
      fileNameOf p ∉ (deleteJobEndpoint s jobId).1.disk) ∧
    (a ∈ (deleteJobEndpoint s jobId).1.audioFiles ↔ siblingJobs s.jobs jobId a.id ≠ []) := by
  have hobj : deleteJobEndpoint s jobId =
      ({ jobs := s.jobs.filter (fun j => j.id != jobId),
         audioFiles := if (siblingJobs s.jobs jobId a.id).isEmpty then
             s.audioFiles.filter (fun x => x.id != a.id)
           else s.audioFiles,
         disk := (deleteOriginalDisk a (deleteOutputDisk job s.disk)).1 }, 200,
        (deleteOriginalDisk a (deleteOutputDisk job s.disk)).2) := by
    simp [deleteJobEndpoint, hfind, haf]
  rw [hobj]
  refine ⟨rfl, ?_, ?_, ?_⟩
  · intro j
    simp [List.mem_filter]
  · intro p hp hmem
    exact deleteOutputDisk_not_mem hnodup hp (deleteOriginalDisk_mem hmem)
  · cases hsib : siblingJobs s.jobs jobId a.id with
    | nil => simp [List.mem_filter]
    | cons x t => simp [List.mem_of_find?_eq_some haf]

/-- A COMPLETED convert job whose result names an output file. -/
def jobConvert : JobRow :=
  { id := 10, audioFileId := 1, type := "convert", status := .COMPLETED, progress := 100,
    result := some { outputPath := some "./uploads/song_converted.mp3", info := "converted" },
    error := none, completedAt := some 2000 }

/-- A second job referencing the same AudioFile. -/
def jobSibling : JobRow :=
  { id := 11, audioFileId := 1, type := "metadata", status := .PENDING, progress := 0,
    result := none, error := none, completedAt := none }

/-- Server state with two jobs sharing one AudioFile and both files on disk. -/
def stSample : ServerState :=
  { jobs := [jobConvert, jobSibling], audioFiles := [afSample],
    disk := ["song.wav", "song_converted.mp3"] }

/-- Witness for C5: deleting job 10 while job 11 still references the same
AudioFile keeps the AudioFile row. -/
theorem C5_delete_endpoint_witness :
    afSample ∈ (deleteJobEndpoint stSample 10).1.audioFiles :=
  (C5_delete_endpoint stSample 10 jobConvert afSample (by decide) (by decide)
    (by decide)).2.2.2.mpr (by decide)

/-- Claim C9: even when sibling Job rows still reference the same AudioFile
and the AudioFile row is kept, the delete endpoint removes the original
uploaded file (`audioFile.filename`) from the upload directory, reports it in
`filesDeleted`, and also removes the output file; the sibling check governs
only the AudioFile row, not the disk deletions. -/
theorem C9_delete_original_unconditional (s : ServerState) (jobId : Nat) (job : JobRow)
    (a : AudioFileRow)
    (hfind : findJob s.jobs jobId = some job)
    (haf : findAudioFile s.audioFiles job.audioFileId = some a)
    (hsib : siblingJobs s.jobs jobId a.id ≠ [])
    (hnodup : s.disk.Nodup) :
    a.filename ∉ (deleteJobEndpoint s jobId).1.disk ∧
    a ∈ (deleteJobEndpoint s jobId).1.audioFiles ∧
    (a.filename ∈ s.disk → a.filename ∈ (deleteJobEndpoint s jobId).2.2) ∧
    (∀ p, job.result.bind ResPayload.outputPath = some p →
      fileNameOf p ∉ (deleteJobEndpoint s jobId).1.disk) := by
  have hie : (siblingJobs s.jobs jobId a.id).isEmpty = false := by
    cases hs2 : siblingJobs s.jobs jobId a.id with
    | nil => exact absurd hs2 hsib
    | cons x t => rfl
  have hobj : deleteJobEndpoint s jobId =
      ({ jobs := s.jobs.filter (fun j => j.id != jobId),
         audioFiles := s.audioFiles,
         disk := (deleteOriginalDisk a (deleteOutputDisk job s.disk)).1 }, 200,
        (deleteOriginalDisk a (deleteOutputDisk job s.disk)).2) := by
    simp [deleteJobEndpoint, hfind, haf, hie]
  rw [hobj]
  refine ⟨?_, ?_, ?_, ?_⟩
  · exact deleteOriginalDisk_not_mem_filename (deleteOutputDisk_nodup hnodup)
  · exact List.mem_of_find?_eq_some haf
  · intro hmem
    by_cases h1 : a.filename ∈ (deleteOutputDisk job s.disk).1
    · exact deleteOriginalDisk_reports h1
    · exact deleteOriginalDisk_keeps_reported (deleteOutputDisk_removed_reported hmem h1)
  · intro p hp hmem
    exact deleteOutputDisk_not_mem hnodup hp (deleteOriginalDisk_mem hmem)

/-- Witness for C9: deleting job 10 removes the original `song.wav` from disk
even though job 11 still references the same AudioFile. -/
theorem C9_delete_original_unconditional_witness :
    afSample.filename ∉ (deleteJobEndpoint stSample 10).1.disk :=
  (C9_delete_original_unconditional stSample 10 jobConvert afSample (by decide) (by decide)
    (by decide) (by decide)).1

/-- Claim C6: for every accepted upload, `uploadAudio` answers 201, creates the
AudioFile row and a Job row with status PENDING, the Job creation happens
before the 201 response is sent, and the response body carries the new job's
id, type and status. -/
theorem C6_upload_creates_pending_before_response (req : UploadReq) (afId jobId : Nat) :
    (uploadAudio { req with hasFile := true } afId jobId).status = 201 ∧
    UpEffect.createAudioFile (uploadedAudioFileRow { req with hasFile := true } afId)
      ∈ (uploadAudio { req with hasFile := true } afId jobId).effects ∧
    (createdJobRow jobId afId (effectiveJobType { req with hasFile := true })).status
      = .PENDING ∧
    jobCreatedBefore201 (uploadAudio { req with hasFile := true } afId jobId)
      (createdJobRow jobId afId (effectiveJobType { req with hasFile := true })) ∧
    (uploadAudio { req with hasFile := true } afId jobId).jobInBody
      = some (jobId, effectiveJobType { req with hasFile := true }, .PENDING) := by
  have hobj : uploadAudio { req with hasFile := true } afId jobId =
      { effects := [.createAudioFile (uploadedAudioFileRow { req with hasFile := true } afId),
          .createJob (createdJobRow jobId afId (effectiveJobType { req with hasFile := true })),
          .enqueue (enqueuedJobData { req with hasFile := true } afId jobId),
          .respond 201],
        status := 201,
        jobInBody := some (jobId, effectiveJobType { req with hasFile := true }, .PENDING) } := by
    simp [uploadAudio, createdJobRow]
  rw [hobj]
  refine ⟨rfl, by simp, rfl, ?_, rfl⟩
  exact ⟨[.createAudioFile (uploadedAudioFileRow { req with hasFile := true } afId)],
    [.enqueue (enqueuedJobData { req with hasFile := true } afId jobId), .respond 201],
    rfl, by simp⟩

/-- The request `uploadAudio` handles for a slice job: the multer file is
present and the body's jobType is `slice`. -/
def sliceUploadReq (req : UploadReq) : UploadReq :=
  { req with hasFile := true, jobType := some "slice" }

/-- Claim C7: a slice upload whose startTime or endTime is missing is still
answered 201 with a PENDING Job created, the enqueued task carries no times,
every worker delivery throws, the Job row ends FAILED with an error message
recorded — and when the upload is found and on disk the message is the slice
guard's — so the failure is job-level, never a 4xx validation error. -/
theorem C7_slice_missing_params_job_level (req : UploadReq) (afId jobId : Nat)
    (envs : List Env) (hmiss : req.startTime = none ∨ req.endTime = none)
    (hne : envs ≠ []) :
    (uploadAudio (sliceUploadReq req) afId jobId).status = 201 ∧
    UpEffect.createJob (createdJobRow jobId afId "slice")
      ∈ (uploadAudio (sliceUploadReq req) afId jobId).effects ∧
    (enqueuedJobData (sliceUploadReq req) afId jobId).startTime = none ∧
    (enqueuedJobData (sliceUploadReq req) afId jobId).endTime = none ∧
    (∀ env : Env, processSucceeds env (enqueuedJobData (sliceUploadReq req) afId jobId) = false) ∧
    (finalRow envs (enqueuedJobData (sliceUploadReq req) afId jobId)).status = .FAILED ∧
    (finalRow envs (enqueuedJobData (sliceUploadReq req) afId jobId)).error.isSome = true ∧
    (∀ env : Env, env.audioFileRow.isSome = true → env.fileOnDisk = true →
      processOutcome env (enqueuedJobData (sliceUploadReq req) afId jobId)
        = .error "Start and end times are required for slicing") := by
  have hdata : enqueuedJobData (sliceUploadReq req) afId jobId =
      { jobId := jobId, audioFileId := afId, jobType := "slice",
        outputFormat := none, startTime := none, endTime := none } := by
    rcases hmiss with h | h <;>
      simp [enqueuedJobData, uploadJobParams, sliceUploadReq, effectiveJobType, h, truthyStr]
  rw [hdata]
  have hk : jKind "slice" = .slice := rfl
  have hguard : (!(truthyNum (none : Option Int)) || !(truthyNum (none : Option Int))) = true :=
    rfl
  refine ⟨by simp [uploadAudio, sliceUploadReq], ?_, rfl, rfl, ?_, ?_, ?_, ?_⟩
  · simp [uploadAudio, sliceUploadReq, effectiveJobType]
  · intro env
    exact (slice_attempt env _ hk hguard).1
  · exact (runRow_queueRun_fail _ envs _ hne
      (fun e _ => (slice_attempt e _ hk hguard).1)).1
  · exact (runRow_queueRun_fail _ envs _ hne
      (fun e _ => (slice_attempt e _ hk hguard).1)).2
  · intro env h1 h2
    exact (slice_attempt env _ hk hguard).2 h1 h2

/-- A slice upload request missing its startTime. -/
def reqSliceMissing : UploadReq :=
  { hasFile := true, fileFilename := "song.wav", fileOriginalName := "song.wav",
    filePath := "./uploads/song.wav", fileMimeType := "audio/wav", fileSize := 64,
    jobType := some "slice", outputFormat := none, startTime := none, endTime := some "2" }

/-- Witness for C7: the slice job enqueued for a request missing startTime
ends FAILED after its delivery. -/
theorem C7_slice_missing_params_job_level_witness :
    (finalRow [envOk] (enqueuedJobData (sliceUploadReq reqSliceMissing) 1 2)).status
      = .FAILED :=
  (C7_slice_missing_params_job_level reqSliceMissing 1 2 [envOk] (Or.inl rfl)
    (by simp)).2.2.2.2.2.1

/-- Claim C8: when the parameters reach the worker with `startTime = 0` (falsy
in JS but a semantically valid slice start) and a non-zero endTime, the guard
`if (!startTime || !endTime)` throws: `sliceAudio` is never invoked (the
dispatch's invocation flag stays false) and, with the upload found and on disk
at every delivery, the Job ends FAILED with the guard's error instead of a
slice starting at second 0. -/
theorem C8_slice_zero_start_rejected (d : JobData) (envs : List Env) (e : Int)
    (hjt : d.jobType = "slice") (hst : d.startTime = some 0)
    (het : d.endTime = some e) (hez : e ≠ 0) (hne : envs ≠ [])
    (hgood : ∀ env ∈ envs, env.audioFileRow.isSome = true ∧ env.fileOnDisk = true) :
    (∀ env : Env, dispatchJob env d
      = (.error "Start and end times are required for slicing", false)) ∧
    (finalRow envs d).status = .FAILED ∧
    (finalRow envs d).error = some "Start and end times are required for slicing" := by
  have hk : jKind d.jobType = .slice := by rw [hjt]; rfl
  have hguard : (!(truthyNum d.startTime) || !(truthyNum d.endTime)) = true := by
    simp [hst, truthyNum]
  have hfailmsg : ∀ env ∈ envs,
      processOutcome env d = .error "Start and end times are required for slicing" :=
    fun env henv =>
      (slice_attempt env d hk hguard).2 (hgood env henv).1 (hgood env henv).2
  refine ⟨fun env => slice_guard env d hk hguard, ?_, ?_⟩
  · exact (runRow_queueRun_constFail d _ envs _ hne hfailmsg).1
  · exact (runRow_queueRun_constFail d _ envs _ hne hfailmsg).2

/-- A slice task reaching the worker with startTime 0 and endTime 2. -/
def dSliceZero : JobData :=
  { jobId := 1, audioFileId := 1, jobType := "slice",
    outputFormat := none, startTime := some 0, endTime := some 2 }

/-- Witness for C8: the startTime-0 slice job ends FAILED with the guard's
message after a delivery in which the upload is found and on disk. -/
theorem C8_slice_zero_start_rejected_witness :
    (finalRow [envOk] dSliceZero).status = .FAILED ∧
    (finalRow [envOk] dSliceZero).error
      = some "Start and end times are required for slicing" :=
  (C8_slice_zero_start_rejected dSliceZero [envOk] 2 rfl rfl rfl (by decide) (by simp)
    (by intro env henv; rw [List.mem_singleton] at henv; subst henv; exact ⟨rfl, rfl⟩)).2

/-- Claim C10: `convertAudio` always hands FFmpeg the fixed audio-codec
arguments `-codec:a libmp3lame -b:a 192k` — the first six arguments do not
depend on the requested output format — while the output file name ends in
`.outputFormat` and the returned result reports that outputFormat. -/
theorem C10_convert_forces_mp3 (inputPath outputFormat : String) (outputSize : Nat) :
    (convertAudio inputPath outputFormat outputSize).args
      = ["-i", fileNameOf inputPath, "-codec:a", "libmp3lame", "-b:a", "192k", "-y",
         (convertAudio inputPath outputFormat outputSize).outputFileName] ∧
    (∀ (f2 : String) (n2 : Nat),
      (convertAudio inputPath outputFormat outputSize).args.take 6
        = (convertAudio inputPath f2 n2).args.take 6) ∧
    (∃ pre, (convertAudio inputPath outputFormat outputSize).outputFileName
        = pre ++ "." ++ outputFormat) ∧
    (convertAudio inputPath outputFormat outputSize).resultOutputFormat = outputFormat := by
  refine ⟨rfl, fun f2 n2 => rfl, ⟨basenameNoExt inputPath ++ "_converted", ?_⟩, rfl⟩
  show basenameNoExt inputPath ++ "_converted." ++ outputFormat
      = basenameNoExt inputPath ++ "_converted" ++ "." ++ outputFormat
  rw [String.append_assoc (basenameNoExt inputPath) "_converted" "."]
  rfl

end AudioPro
